import Mathlib

/-!
Verification of the Oando dashboard core pipeline (src/app.py):
data loader, sidebar filter engine, KPI aggregation and the grouped
aggregates that feed the charts. The embedding below follows the
source line by line; the presentation layer (page chrome, widgets,
chart rendering) is out of scope and modelled only through the values
handed to it.
-/

/-- Calendar dates are encoded as natural numbers y*10000 + m*100 + d,
an encoding that orders valid dates chronologically. -/
abbrev Date := Nat

def mkDate (y m d : Nat) : Date := y * 10000 + m * 100 + d

/-- Truncation of a date to year+month granularity, the model of the
pandas Period bucketing dt.to_period applied in the monthly trend. -/
def monthKey (d : Date) : Nat := d / 100

/-- Column presence flags of a loaded table, the model of membership
tests such as the check that Date is among df.columns. -/
structure Cols where
  hasDate : Bool
  hasStatus : Bool
  hasRegion : Bool
  hasSegment : Bool
  hasVolume : Bool
  hasRevenue : Bool
  deriving DecidableEq

/-- One cleaned row. A none field models a missing value (NaN / NaT). -/
structure Row where
  status : Option String
  region : Option String
  segment : Option String
  date : Option Date
  volume : Option Rat
  revenue : Option Rat
  deriving DecidableEq

/-- A loaded table: its schema flags and its ordered rows. -/
structure Dataset where
  cols : Cols
  rows : List Row
  deriving DecidableEq

/-- A raw Date cell before pd.to_datetime with coercion: either a
parsable date, an unparsable value, or a missing cell. -/
inductive RawDate where
  | valid (d : Date)
  | unparsable
  | absent
  deriving DecidableEq

/-- pd.to_datetime with errors coerce: unparsable and missing cells
both become absent (NaT). -/
def parseDate : RawDate → Option Date
  | .valid d => some d
  | .unparsable => none
  | .absent => none

/-- One raw row of the spreadsheet before cleaning. -/
structure RawRow where
  status : Option String
  region : Option String
  segment : Option String
  date : RawDate
  volume : Option Rat
  revenue : Option Rat
  deriving DecidableEq

/-- The raw parsed spreadsheet. -/
structure RawTable where
  cols : Cols
  rows : List RawRow
  deriving DecidableEq

/-- The loader error taxonomy of the spec. -/
inductive LoadError where
  | missingSource
  | parseError
  deriving DecidableEq

/-- The state of the input file: missing on disk, present but
unreadable, or a readable table. -/
inductive Source where
  | missing
  | unreadable
  | file (t : RawTable)
  deriving DecidableEq

/-- Cleaning of one row, as in load_data: Date parsed with coercion to
absent; Status, Region and Customer_Segment filled with Unknown when
missing and their column exists. -/
def cleanRow (c : Cols) (r : RawRow) : Row :=
  { status := if c.hasStatus then some (r.status.getD "Unknown") else r.status
    region := if c.hasRegion then some (r.region.getD "Unknown") else r.region
    segment := if c.hasSegment then some (r.segment.getD "Unknown") else r.segment
    date := if c.hasDate then parseDate r.date else none
    volume := r.volume
    revenue := r.revenue }

/-- The empty DataFrame returned by load_data on failure. -/
def emptyDataset : Dataset :=
  { cols := { hasDate := false, hasStatus := false, hasRegion := false,
              hasSegment := false, hasVolume := false, hasRevenue := false }
    rows := [] }

/-- load_data: a missing file yields an empty Dataset and a
MissingSourceError report; an unreadable file yields an empty Dataset
and a ParseError report; otherwise the table is cleaned column by
column. No exception escapes: the function is total. -/
def load_data : Source → Dataset × Option LoadError
  | .missing => (emptyDataset, some .missingSource)
  | .unreadable => (emptyDataset, some .parseError)
  | .file t => ({ cols := t.cols, rows := t.rows.map (cleanRow t.cols) }, none)

/-- The sidebar filter state: the multiselect status list, the
multiselect region list, and the date widget output modelled as a list
of bounds (empty when the widget returned none, one bound while a
range is half picked, two bounds for a full interval). -/
structure Selection where
  statuses : List String
  regions : List String
  dateRange : List Date
  deriving DecidableEq

/-- The error raised by the filter section: the unguarded column
access df of Date raises a KeyError when the column is absent. -/
inductive FilterError where
  | keyError (column : String)
  deriving DecidableEq

/-- Equality of filter runs is decidable, so that concrete runs can be
checked by evaluation. -/
instance exceptDecEq {ε α : Type} [DecidableEq ε] [DecidableEq α] :
    DecidableEq (Except ε α) := fun a b =>
  match a, b with
  | .ok x, .ok y =>
      if h : x = y then .isTrue (by rw [h])
      else .isFalse (fun hc => h (Except.ok.inj hc))
  | .error x, .error y =>
      if h : x = y then .isTrue (by rw [h])
      else .isFalse (fun hc => h (Except.error.inj hc))
  | .ok _, .error _ => .isFalse (fun hc => Except.noConfusion hc)
  | .error _, .ok _ => .isFalse (fun hc => Except.noConfusion hc)

/-- Status membership, the model of Series.isin on the Status column:
a missing value is never a member. -/
def statusPred (selected : List String) (r : Row) : Bool :=
  match r.status with
  | some s => selected.contains s
  | none => false

/-- Region membership, symmetric to statusPred. -/
def regionPred (selected : List String) (r : Row) : Bool :=
  match r.region with
  | some s => selected.contains s
  | none => false

/-- The date range test of one filter block: an absent date compares
false on both bounds, as NaT does in pandas. -/
def datePred (lo hi : Date) (r : Row) : Bool :=
  match r.date with
  | some d => decide (lo ≤ d) && decide (d ≤ hi)
  | none => false

/-- One guarded date filter block of the source: the filter is applied
exactly when the widget output has exactly two bounds, and is skipped
otherwise. -/
def applyDateBlock (rows : List Row) : List Date → List Row
  | [lo, hi] => rows.filter (datePred lo hi)
  | [] => rows
  | [_] => rows
  | _ :: _ :: _ :: _ => rows

/-- The predicate a single date block applies: the date range test for
a two bound selection, vacuously true otherwise. -/
def datePredIf : List Date → Row → Bool
  | [lo, hi] => datePred lo hi
  | [] => fun _ => true
  | [_] => fun _ => true
  | _ :: _ :: _ :: _ => fun _ => true

/-- The sidebar filter engine of the source, in source order: when the
Status column exists the status multiselect filter is applied and then
the date section runs, which reads the Date column of the full table
unconditionally (a KeyError when Date is absent) and then applies the
identical guarded date block three times; finally, when the Region
column exists, the region multiselect filter is applied. -/
def filterData (d : Dataset) (sel : Selection) : Except FilterError Dataset :=
  if d.cols.hasStatus then
    let r1 := d.rows.filter (statusPred sel.statuses)
    if d.cols.hasDate then
      let r2 := applyDateBlock (applyDateBlock (applyDateBlock r1 sel.dateRange)
                  sel.dateRange) sel.dateRange
      .ok { cols := d.cols
            rows := if d.cols.hasRegion then r2.filter (regionPred sel.regions) else r2 }
    else
      .error (.keyError "Date")
  else
    .ok { cols := d.cols
          rows := if d.cols.hasRegion then d.rows.filter (regionPred sel.regions)
                  else d.rows }

/-- The filter engine as the spec words it for the duplicated blocks:
a single application of the date predicate instead of three. -/
def filterSingleApply (d : Dataset) (sel : Selection) : Except FilterError Dataset :=
  if d.cols.hasStatus then
    let r1 := d.rows.filter (statusPred sel.statuses)
    if d.cols.hasDate then
      let r2 := applyDateBlock r1 sel.dateRange
      .ok { cols := d.cols
            rows := if d.cols.hasRegion then r2.filter (regionPred sel.regions) else r2 }
    else
      .error (.keyError "Date")
  else
    .ok { cols := d.cols
          rows := if d.cols.hasRegion then d.rows.filter (regionPred sel.regions)
                  else d.rows }

/-- The conjunction of the three predicates a successful filter run
applies to one row. -/
def rowPred (c : Cols) (sel : Selection) (r : Row) : Bool :=
  (!c.hasStatus || statusPred sel.statuses r) &&
  (!(c.hasStatus && c.hasDate) || datePredIf sel.dateRange r) &&
  (!c.hasRegion || regionPred sel.regions r)

/-- Lexicographic comparison of two character lists by code point. -/
def charListLt : List Char → List Char → Bool
  | [], [] => false
  | [], _ :: _ => true
  | _ :: _, [] => false
  | a :: as, b :: bs =>
    if a.val.toNat < b.val.toNat then true
    else if b.val.toNat < a.val.toNat then false
    else charListLt as bs

/-- Code point order on strings, the order the Python sorted builtin
uses on the status and region option lists. -/
def strLt (a b : String) : Bool := charListLt a.data b.data

/-- Insertion of a string into a sorted list, for the model of the
Python sorted builtin over code point order. -/
def insertStr (x : String) : List String → List String
  | [] => [x]
  | y :: ys => if strLt x y then x :: y :: ys else y :: insertStr x ys

/-- The Python sorted builtin on a list of strings. -/
def sortStrs : List String → List String
  | [] => []
  | x :: xs => insertStr x (sortStrs xs)

/-- The default widget state on first load: every distinct status and
region value of the full table, sorted for display, and the inclusive
interval from the minimum to the maximum present date (no interval
when the table has no present date, as the date widget then starts
from a none value). -/
def defaultSelection (d : Dataset) : Selection :=
  { statuses := sortStrs (d.rows.filterMap (fun r => r.status)).dedup
    regions := sortStrs (d.rows.filterMap (fun r => r.region)).dedup
    dateRange :=
      match (d.rows.filterMap (fun r => r.date)).min?,
            (d.rows.filterMap (fun r => r.date)).max? with
      | some a, some b => [a, b]
      | _, _ => [] }

/-- total_orders: the row count of the filtered table. -/
def total_orders (d : Dataset) : Nat := d.rows.length

/-- The count of rows whose Status equals a literal, the model of
Series.eq followed by sum; zero when the Status column is absent. -/
def countStatusEq (d : Dataset) (v : String) : Nat :=
  if d.cols.hasStatus then d.rows.countP (fun r => r.status == some v) else 0

def fulfilled_orders (d : Dataset) : Nat := countStatusEq d "Completed"

def pending_orders (d : Dataset) : Nat := countStatusEq d "Pending"

def cancelled_orders (d : Dataset) : Nat := countStatusEq d "Cancelled"

/-- fulfillment_rate, guarded against a zero denominator exactly as in
the source. -/
def fulfillment_rate (d : Dataset) : Rat :=
  if 0 < total_orders d then
    ((fulfilled_orders d : Rat) / (total_orders d : Rat)) * 100
  else 0

/-- The one decimal rendering used by the KPI display, as a rational:
round to the nearest tenth. -/
def formatRate1 (q : Rat) : Rat := ((round (q * 10) : Int) : Rat) / 10

/-- The monthly trend: when the Date column exists, rows with a
present date are bucketed by year+month; the groupby yields the
distinct month keys in ascending order, each with its group size.
Absent the Date column the chart section does not run. -/
def monthly_trend (d : Dataset) : Option (List (Nat × Nat)) :=
  if d.cols.hasDate then
    let dates := d.rows.filterMap (fun r => r.date)
    let keys := List.insertionSort (fun a b => a ≤ b) (dates.map monthKey).dedup
    some (keys.map (fun k => (k, dates.countP (fun dt => monthKey dt == k))))
  else none

/-- Revenue grouped by region: requires both columns; the groupby
yields the distinct region keys of present region values in sorted
order, each with the sum of the present Revenue_USD values of its
rows. Absent either column the aggregate is not computed. -/
def revenue_by_region (d : Dataset) : Option (List (String × Rat)) :=
  if d.cols.hasRegion && d.cols.hasRevenue then
    let keys := sortStrs (d.rows.filterMap (fun r => r.region)).dedup
    some (keys.map (fun g =>
      (g, ((d.rows.filter (fun r => r.region == some g)).filterMap
            (fun r => r.revenue)).sum)))
  else none

/-- Everything the presentation adapter receives downstream of the
filter: the filtered table, the KPI scalars and the grouped
aggregates. -/
structure RenderOutput where
  filtered : Dataset
  totalOrders : Nat
  fulfilled : Nat
  pending : Nat
  cancelled : Nat
  rate : Rat
  trend : Option (List (Nat × Nat))
  revenueRegion : Option (List (String × Rat))
  deriving DecidableEq

def renderFrom (fd : Dataset) : RenderOutput :=
  { filtered := fd
    totalOrders := total_orders fd
    fulfilled := fulfilled_orders fd
    pending := pending_orders fd
    cancelled := cancelled_orders fd
    rate := fulfillment_rate fd
    trend := monthly_trend fd
    revenueRegion := revenue_by_region fd }

/-- The whole script run: load, stop early (none) when the loaded
table is empty, otherwise filter with the session selection and hand
the results to the presentation adapter. -/
def runApp (src : Source) (mkSel : Dataset → Selection) :
    Option (Except FilterError RenderOutput) :=
  let loaded := load_data src
  if loaded.1.rows.isEmpty then none
  else some ((filterData loaded.1 (mkSel loaded.1)).map renderFrom)

/-- The schema of the three row scenario table of the spec. -/
def scenarioCols : Cols :=
  { hasDate := true, hasStatus := true, hasRegion := true,
    hasSegment := false, hasVolume := false, hasRevenue := true }

/-- The three row scenario table of the spec. -/
def scenarioData : Dataset :=
  { cols := scenarioCols
    rows :=
      [ { status := some "Completed", region := some "West", segment := none,
          date := some (mkDate 2024 1 15), volume := none, revenue := some 100 },
        { status := some "Pending", region := some "East", segment := none,
          date := some (mkDate 2024 1 20), volume := none, revenue := some 50 },
        { status := some "Cancelled", region := some "West", segment := none,
          date := some (mkDate 2024 2 1), volume := none, revenue := some 75 } ] }

/-- The scenario selection with the reversed date interval, end before
start, all statuses and regions selected. -/
def reversedSel : Selection :=
  { statuses := ["Cancelled", "Completed", "Pending"]
    regions := ["East", "West"]
    dateRange := [mkDate 2024 2 1, mkDate 2024 1 1] }

/-- A table with a Status column and no Date column. -/
def onlyStatusData : Dataset :=
  { cols := { hasDate := false, hasStatus := true, hasRegion := false,
              hasSegment := false, hasVolume := false, hasRevenue := false }
    rows := [ { status := some "Completed", region := none, segment := none,
                date := none, volume := none, revenue := none } ] }

/-- A two row table with Status and Date columns in which one row has
a present date and the other an absent date. -/
def mixedDateData : Dataset :=
  { cols := { hasDate := true, hasStatus := true, hasRegion := false,
              hasSegment := false, hasVolume := false, hasRevenue := false }
    rows := [ { status := some "Completed", region := none, segment := none,
                date := some (mkDate 2024 1 10), volume := none, revenue := none },
              { status := some "Pending", region := none, segment := none,
                date := none, volume := none, revenue := none } ] }

/-! ### Helper lemmas about the filter engine -/

theorem applyDateBlock_eq_filter (rows : List Row) (dr : List Date) :
    applyDateBlock rows dr = rows.filter (datePredIf dr) := by
  match dr with
  | [] => simp [applyDateBlock, datePredIf]
  | [_] => simp [applyDateBlock, datePredIf]
  | [_, _] => rfl
  | _ :: _ :: _ :: _ => simp [applyDateBlock, datePredIf]

theorem filter_self_idem (p : Row → Bool) (l : List Row) :
    (l.filter p).filter p = l.filter p := by
  rw [List.filter_filter]
  exact List.filter_congr fun a _ => Bool.and_self (p a)

theorem filterData_eq (d : Dataset) (sel : Selection) :
    filterData d sel =
      if d.cols.hasStatus && !d.cols.hasDate then .error (.keyError "Date")
      else .ok { cols := d.cols, rows := d.rows.filter (rowPred d.cols sel) } := by
  rcases d with ⟨c, rows⟩
  rcases c with ⟨cd, cs, cr, cseg, cv, crev⟩
  cases cs <;> cases cd <;> cases cr <;>
    simp [filterData, applyDateBlock_eq_filter, List.filter_filter]
  all_goals try rfl
  all_goals
    first
    | exact (List.filter_eq_self.mpr fun a _ => by simp [rowPred]).symm
    | exact List.filter_eq_self.mpr fun a _ => by simp [rowPred]
    | (refine List.filter_congr fun a _ => ?_
       cases h1 : statusPred sel.statuses a <;>
         cases h2 : datePredIf sel.dateRange a <;>
           cases h3 : regionPred sel.regions a <;> simp [rowPred, h1, h2, h3])

/-! ### Claim theorems -/

/-- Claim C1 as stated is false on the code: with the two bound
interval whose end precedes its start, the filter engine does not
treat the interval as malformed and does not skip the date predicate;
on the three row scenario dataset the filtered result is empty, not
all three rows. -/
theorem reversed_interval_counterexample :
    filterData scenarioData reversedSel = .ok { cols := scenarioCols, rows := [] } := by
  decide

/-- Claim C1 amended: a selection with exactly two bounds is never
treated as malformed; when its end precedes its start the date
predicate is applied as given and excludes every row, so the filtered
result is empty (0 of the 3 scenario rows remain, not 3). -/
theorem reversed_interval_filters_out_all (d : Dataset) (sel : Selection) (lo hi : Date)
    (hdr : sel.dateRange = [lo, hi]) (hlt : hi < lo)
    (hs : d.cols.hasStatus = true) (hd : d.cols.hasDate = true) :
    filterData d sel = .ok { cols := d.cols, rows := [] } := by
  rw [filterData_eq]
  rw [if_neg (by simp [hs, hd])]
  refine congrArg Except.ok (congrArg (Dataset.mk d.cols) (List.filter_eq_nil_iff.mpr
    fun a _ => ?_))
  intro hpa
  have hB : datePredIf sel.dateRange a = true := by
    by_contra hB
    have hB2 : datePredIf sel.dateRange a = false := by
      cases hdp : datePredIf sel.dateRange a
      · rfl
      · exact absurd hdp hB
    unfold rowPred at hpa
    rw [hs, hd, hB2] at hpa
    simp at hpa
  rw [hdr] at hB
  simp only [datePredIf] at hB
  unfold datePred at hB
  cases hdate : a.date
  · rw [hdate] at hB
    simp at hB
  · rw [hdate] at hB
    simp at hB
    exact Nat.lt_irrefl lo (Nat.lt_of_le_of_lt (Nat.le_trans hB.1 hB.2) hlt)

theorem reversed_interval_filters_out_all_witness :
    filterData scenarioData reversedSel = .ok { cols := scenarioData.cols, rows := [] } :=
  reversed_interval_filters_out_all scenarioData reversedSel
    (mkDate 2024 2 1) (mkDate 2024 1 1) (by decide) (by decide) (by decide) (by decide)

/-- Claim C2: the code contradicts it. The date filter section runs
whenever the Status column exists and reads the Date column of the
table without any presence check, so a dataset with a Status column
and no Date column makes filtering raise a KeyError instead of
skipping the date predicate. -/
theorem status_without_date_keyerror :
    (∀ (d : Dataset) (sel : Selection), d.cols.hasStatus = true → d.cols.hasDate = false →
      filterData d sel = .error (.keyError "Date")) ∧
    filterData onlyStatusData (defaultSelection onlyStatusData) = .error (.keyError "Date") := by
  constructor
  · intro d sel h1 h2
    rw [filterData_eq]
    rw [if_pos (by simp [h1, h2])]
  · decide

theorem status_without_date_keyerror_witness :
    filterData onlyStatusData (defaultSelection onlyStatusData) = .error (.keyError "Date") :=
  status_without_date_keyerror.1 onlyStatusData (defaultSelection onlyStatusData)
    (by decide) (by decide)

/-- Claim C6: filtering is idempotent. A second run of the filter
engine with the same selection on an already filtered dataset returns
it unchanged; in the error case both sides are the same error. -/
theorem filter_idempotent (d : Dataset) (sel : Selection) :
    (filterData d sel).bind (fun fd => filterData fd sel) = filterData d sel := by
  rw [filterData_eq d sel]
  by_cases h : (d.cols.hasStatus && !d.cols.hasDate) = true
  · rw [if_pos h]
    rfl
  · rw [if_neg h]
    dsimp only [Except.bind]
    rw [filterData_eq]
    dsimp only
    rw [if_neg h, filter_self_idem]

/-- Claim C9: the three identical guarded date filter blocks of the
source produce exactly the filtered result of a single application of
the date range predicate, for every well formed two bound interval. -/
theorem triple_date_filter_eq_single (d : Dataset) (sel : Selection)
    (h : sel.dateRange.length = 2) :
    filterData d sel = filterSingleApply d sel := by
  have hadb : ∀ (l : List Row),
      applyDateBlock (applyDateBlock (applyDateBlock l sel.dateRange) sel.dateRange)
        sel.dateRange = applyDateBlock l sel.dateRange := by
    intro l
    rw [applyDateBlock_eq_filter, applyDateBlock_eq_filter, applyDateBlock_eq_filter,
      filter_self_idem, filter_self_idem]
  simp only [filterData, filterSingleApply, hadb]

theorem triple_date_filter_eq_single_witness :
    (defaultSelection scenarioData).dateRange.length = 2 ∧
    filterData scenarioData (defaultSelection scenarioData) =
      filterSingleApply scenarioData (defaultSelection scenarioData) :=
  ⟨by decide, triple_date_filter_eq_single scenarioData (defaultSelection scenarioData)
    (by decide)⟩

theorem scenario_rate : fulfillment_rate scenarioData = 100 / 3 := by
  have h : fulfillment_rate scenarioData =
      ((fulfilled_orders scenarioData : Rat) / (total_orders scenarioData : Rat)) * 100 := by
    unfold fulfillment_rate
    rw [if_pos (by decide)]
  rw [h, show fulfilled_orders scenarioData = 1 from by decide,
      show total_orders scenarioData = 3 from by decide]
  norm_num

theorem scenario_revenue :
    revenue_by_region scenarioData = some [("East", 50), ("West", 175)] := by
  have hraw : revenue_by_region scenarioData =
      some [("East", ((50 : Rat) + 0)), ("West", ((100 : Rat) + (75 + 0)))] := rfl
  rw [hraw]
  norm_num

/-- Claim C3: on the three row scenario dataset with the default (no
filter) state, the pipeline keeps all rows and yields the stated KPI
scalars, the stated monthly trend, and the stated revenue by region;
the fulfillment rate is exactly 100/3, which the one decimal KPI
display renders as 33.3. -/
theorem scenario_defaults_kpis :
    filterData scenarioData (defaultSelection scenarioData) = .ok scenarioData ∧
    total_orders scenarioData = 3 ∧
    fulfilled_orders scenarioData = 1 ∧
    pending_orders scenarioData = 1 ∧
    cancelled_orders scenarioData = 1 ∧
    fulfillment_rate scenarioData = 100 / 3 ∧
    formatRate1 (fulfillment_rate scenarioData) = 333 / 10 ∧
    monthly_trend scenarioData = some [(202401, 2), (202402, 1)] ∧
    revenue_by_region scenarioData = some [("East", 50), ("West", 175)] := by
  refine ⟨by decide, by decide, by decide, by decide, by decide, scenario_rate, ?_,
    by decide, scenario_revenue⟩
  rw [scenario_rate]
  norm_num [formatRate1, round_eq]

/-- Claim C4: the fulfillment rate equals fulfilled over total times
100 when the total is positive, equals exactly zero when the total is
zero, and always lies in the closed interval from 0 to 100. -/
theorem fulfillment_rate_spec (d : Dataset) :
    (0 < total_orders d →
      fulfillment_rate d = ((fulfilled_orders d : Rat) / (total_orders d : Rat)) * 100) ∧
    (total_orders d = 0 → fulfillment_rate d = 0) ∧
    0 ≤ fulfillment_rate d ∧ fulfillment_rate d ≤ 100 := by
  have hle : fulfilled_orders d ≤ total_orders d := by
    unfold fulfilled_orders countStatusEq total_orders
    by_cases h : d.cols.hasStatus = true
    · rw [if_pos h]
      exact List.countP_le_length _
    · rw [if_neg h]
      exact Nat.zero_le _
  refine ⟨?_, ?_, ?_, ?_⟩
  · intro h
    unfold fulfillment_rate
    rw [if_pos h]
  · intro h
    unfold fulfillment_rate
    rw [if_neg (by omega)]
  · unfold fulfillment_rate
    by_cases h : 0 < total_orders d
    · rw [if_pos h]
      positivity
    · rw [if_neg h]
  · unfold fulfillment_rate
    by_cases h : 0 < total_orders d
    · rw [if_pos h]
      have ht : (0 : Rat) < (total_orders d : Rat) := by exact_mod_cast h
      have hf : (fulfilled_orders d : Rat) ≤ (total_orders d : Rat) := by exact_mod_cast hle
      have hdiv : (fulfilled_orders d : Rat) / (total_orders d : Rat) ≤ 1 := by
        rw [div_le_one ht]
        exact hf
      have := mul_le_mul_of_nonneg_right hdiv (by norm_num : (0 : Rat) ≤ 100)
      simpa using this
    · rw [if_neg h]
      norm_num

theorem fulfillment_rate_spec_witness :
    0 < total_orders scenarioData ∧
    fulfillment_rate scenarioData =
      ((fulfilled_orders scenarioData : Rat) / (total_orders scenarioData : Rat)) * 100 :=
  ⟨by decide, (fulfillment_rate_spec scenarioData).1 (by decide)⟩

theorem insertStr_perm (x : String) (l : List String) :
    List.Perm (insertStr x l) (x :: l) := by
  induction l with
  | nil => exact List.Perm.refl _
  | cons y ys ih =>
    unfold insertStr
    by_cases h : strLt x y = true
    · rw [if_pos h]
    · rw [if_neg h]
      exact (List.Perm.cons y ih).trans (List.Perm.swap x y ys)

theorem sortStrs_perm (l : List String) : List.Perm (sortStrs l) l := by
  induction l with
  | nil => exact List.Perm.refl _
  | cons x xs ih =>
    exact (insertStr_perm x (sortStrs xs)).trans (List.Perm.cons x ih)

/-- Claim C5: for every dataset with a Date column, the monthly trend
is computed, its month keys are strictly chronologically ascending,
every emitted count is positive (no zero filled months), and the month
keys are exactly the months of the rows with a present date. -/
theorem monthly_trend_spec (d : Dataset) (hd : d.cols.hasDate = true) :
    ∃ l, monthly_trend d = some l ∧
      l.Pairwise (fun a b => a.1 < b.1) ∧
      (∀ p ∈ l, 0 < p.2) ∧
      (∀ k : Nat, k ∈ l.map Prod.fst ↔
        ∃ r ∈ d.rows, ∃ dt, r.date = some dt ∧ monthKey dt = k) := by
  have heq : monthly_trend d =
      some ((List.insertionSort (fun a b => a ≤ b)
          ((d.rows.filterMap (fun r => r.date)).map monthKey).dedup).map
        (fun k => (k, (d.rows.filterMap (fun r => r.date)).countP
          (fun dt => monthKey dt == k)))) := by
    unfold monthly_trend
    rw [if_pos hd]
  refine ⟨_, heq, ?_, ?_, ?_⟩
  · have hsorted : List.Sorted (fun a b => a ≤ b)
        (List.insertionSort (fun a b => a ≤ b)
          ((d.rows.filterMap (fun r => r.date)).map monthKey).dedup) :=
      List.sorted_insertionSort _ _
    have hperm : List.Perm
        (List.insertionSort (fun a b => a ≤ b)
          ((d.rows.filterMap (fun r => r.date)).map monthKey).dedup)
        ((d.rows.filterMap (fun r => r.date)).map monthKey).dedup :=
      List.perm_insertionSort _ _
    have hnodup : (List.insertionSort (fun a b => a ≤ b)
        ((d.rows.filterMap (fun r => r.date)).map monthKey).dedup).Nodup :=
      hperm.symm.nodup (List.nodup_dedup _)
    have hlt : (List.insertionSort (fun a b => a ≤ b)
        ((d.rows.filterMap (fun r => r.date)).map monthKey).dedup).Pairwise
        (fun a b => a < b) :=
      (hsorted.and hnodup).imp (fun hab => lt_of_le_of_ne hab.1 hab.2)
    exact List.pairwise_map.mpr hlt
  · intro p hp
    obtain ⟨k, hk, hpk⟩ := List.mem_map.mp hp
    have hk2 : k ∈ ((d.rows.filterMap (fun r => r.date)).map monthKey).dedup :=
      (List.perm_insertionSort _ _).mem_iff.mp hk
    have hk3 : k ∈ (d.rows.filterMap (fun r => r.date)).map monthKey :=
      List.mem_dedup.mp hk2
    obtain ⟨dt, hdt, hmk⟩ := List.mem_map.mp hk3
    have hpos : 0 < (d.rows.filterMap (fun r => r.date)).countP
        (fun dt => monthKey dt == k) :=
      List.countP_pos_iff.mpr ⟨dt, hdt, by rw [hmk]; simp⟩
    rw [← hpk]
    exact hpos
  · intro k
    have hfst : ((List.insertionSort (fun a b => a ≤ b)
          ((d.rows.filterMap (fun r => r.date)).map monthKey).dedup).map
        (fun k => (k, (d.rows.filterMap (fun r => r.date)).countP
          (fun dt => monthKey dt == k)))).map Prod.fst =
        List.insertionSort (fun a b => a ≤ b)
          ((d.rows.filterMap (fun r => r.date)).map monthKey).dedup := by
      rw [List.map_map]
      exact List.map_id _
    rw [hfst, (List.perm_insertionSort _ _).mem_iff, List.mem_dedup, List.mem_map]
    constructor
    · rintro ⟨dt, hdt, rfl⟩
      obtain ⟨r, hr, hrd⟩ := List.mem_filterMap.mp hdt
      exact ⟨r, hr, dt, hrd, rfl⟩
    · rintro ⟨r, hr, dt, hrd, rfl⟩
      exact ⟨dt, List.mem_filterMap.mpr ⟨r, hr, hrd⟩, rfl⟩

theorem monthly_trend_spec_witness :
    scenarioData.cols.hasDate = true ∧
    ∃ l, monthly_trend scenarioData = some l ∧
      l.Pairwise (fun a b => a.1 < b.1) ∧
      (∀ p ∈ l, 0 < p.2) ∧
      (∀ k : Nat, k ∈ l.map Prod.fst ↔
        ∃ r ∈ scenarioData.rows, ∃ dt, r.date = some dt ∧ monthKey dt = k) :=
  ⟨by decide, monthly_trend_spec scenarioData (by decide)⟩

/-- Claim C7: with both Region and Revenue_USD columns present, the
revenue by region aggregate assigns each region exactly the sum of the
present revenues over the rows the filter engine region predicate with
that single region keeps; the emitted regions are exactly the regions
present, each once. Absent either column the aggregate is not
computed. -/
theorem revenue_by_region_spec (d : Dataset) :
    (d.cols.hasRegion = true → d.cols.hasRevenue = true →
      ∃ l, revenue_by_region d = some l ∧
        (∀ p ∈ l, p.2 =
          ((d.rows.filter (regionPred [p.1])).filterMap (fun r => r.revenue)).sum) ∧
        (l.map Prod.fst).Nodup ∧
        (∀ g : String, g ∈ l.map Prod.fst ↔ ∃ r ∈ d.rows, r.region = some g)) ∧
    ((d.cols.hasRegion && d.cols.hasRevenue) = false → revenue_by_region d = none) := by
  constructor
  · intro h1 h2
    have heq : revenue_by_region d =
        some ((sortStrs (d.rows.filterMap (fun r => r.region)).dedup).map (fun g =>
          (g, ((d.rows.filter (fun r => r.region == some g)).filterMap
            (fun r => r.revenue)).sum))) := by
      unfold revenue_by_region
      rw [if_pos (by simp [h1, h2])]
    have hpred : ∀ (g : String) (r : Row), (r.region == some g) = regionPred [g] r := by
      intro g r
      cases hreg : r.region with
      | none => simp [regionPred, hreg]
      | some s =>
        by_cases hs : s = g <;> simp [regionPred, hreg, hs, List.contains]
    have hfst : ((sortStrs (d.rows.filterMap (fun r => r.region)).dedup).map (fun g =>
          (g, ((d.rows.filter (fun r => r.region == some g)).filterMap
            (fun r => r.revenue)).sum))).map Prod.fst =
        sortStrs (d.rows.filterMap (fun r => r.region)).dedup := by
      rw [List.map_map]
      exact List.map_id _
    refine ⟨_, heq, ?_, ?_, ?_⟩
    · intro p hp
      obtain ⟨g, hg, hpg⟩ := List.mem_map.mp hp
      rw [← hpg]
      dsimp only
      rw [List.filter_congr (fun r _ => hpred g r)]
    · rw [hfst]
      exact (sortStrs_perm _).symm.nodup (List.nodup_dedup _)
    · intro g
      rw [hfst, (sortStrs_perm _).mem_iff, List.mem_dedup, List.mem_filterMap]
  · intro h
    unfold revenue_by_region
    rw [if_neg (by simp [h])]

theorem revenue_by_region_spec_witness :
    scenarioData.cols.hasRegion = true ∧
    ∃ l, revenue_by_region scenarioData = some l ∧
      (∀ p ∈ l, p.2 =
        ((scenarioData.rows.filter (regionPred [p.1])).filterMap
          (fun r => r.revenue)).sum) ∧
      (l.map Prod.fst).Nodup ∧
      (∀ g : String, g ∈ l.map Prod.fst ↔ ∃ r ∈ scenarioData.rows, r.region = some g) :=
  ⟨by decide, (revenue_by_region_spec scenarioData).1 (by decide) (by decide)⟩

/-- Claim C8: loading a missing file yields the empty dataset together
with the missing source report, without any exception, and whenever
the loaded dataset is empty the whole downstream run stops before
filtering, aggregation or rendering. -/
theorem load_missing_short_circuit :
    load_data .missing = (emptyDataset, some .missingSource) ∧
    (∀ (src : Source) (mkSel : Dataset → Selection),
      (load_data src).1.rows.isEmpty = true → runApp src mkSel = none) := by
  refine ⟨rfl, ?_⟩
  intro src mkSel h
  unfold runApp
  rw [if_pos h]

theorem load_missing_short_circuit_witness :
    (load_data .missing).1.rows.isEmpty = true ∧
    runApp .missing defaultSelection = none :=
  ⟨by decide, load_missing_short_circuit.2 .missing defaultSelection (by decide)⟩

/-- Claim C10: on a dataset with Status and Date columns and at least
one present date, the default first load selection already carries the
two bound interval from the minimum to the maximum date, and the date
predicate is active: the initial filtered dataset contains only rows
with a present date, so rows with an absent date are excluded from it
and hence from every KPI and aggregate computed from it. -/
theorem default_date_filter_excludes_absent (d : Dataset)
    (hs : d.cols.hasStatus = true) (hd : d.cols.hasDate = true)
    (hx : ∃ r ∈ d.rows, (r.date).isSome = true) :
    ∃ fd, filterData d (defaultSelection d) = .ok fd ∧
      ∀ r ∈ fd.rows, (r.date).isSome = true := by
  obtain ⟨r0, hr0, hr0d⟩ := hx
  obtain ⟨dt0, hdt0⟩ := Option.isSome_iff_exists.mp hr0d
  have hmem : dt0 ∈ d.rows.filterMap (fun r => r.date) :=
    List.mem_filterMap.mpr ⟨r0, hr0, hdt0⟩
  have hne : d.rows.filterMap (fun r => r.date) ≠ [] := by
    intro hnil
    rw [hnil] at hmem
    cases hmem
  obtain ⟨a, ha⟩ : ∃ a, (d.rows.filterMap (fun r => r.date)).min? = some a := by
    cases hm : (d.rows.filterMap (fun r => r.date)).min? with
    | none => exact absurd (List.min?_eq_none_iff.mp hm) hne
    | some a => exact ⟨a, rfl⟩
  obtain ⟨b, hb⟩ : ∃ b, (d.rows.filterMap (fun r => r.date)).max? = some b := by
    cases hm : (d.rows.filterMap (fun r => r.date)).max? with
    | none => exact absurd (List.max?_eq_none_iff.mp hm) hne
    | some b => exact ⟨b, rfl⟩
  have hdr : (defaultSelection d).dateRange = [a, b] := by
    simp [defaultSelection, ha, hb]
  have heq := filterData_eq d (defaultSelection d)
  rw [if_neg (by simp [hs, hd])] at heq
  refine ⟨_, heq, ?_⟩
  intro r hr
  have hB : datePredIf (defaultSelection d).dateRange r = true := by
    by_contra hB
    have hB2 : datePredIf (defaultSelection d).dateRange r = false := by
      cases hh : datePredIf (defaultSelection d).dateRange r
      · rfl
      · exact absurd hh hB
    have hp := (List.mem_filter.mp hr).2
    unfold rowPred at hp
    rw [hs, hd, hB2] at hp
    simp at hp
  rw [hdr] at hB
  simp only [datePredIf] at hB
  unfold datePred at hB
  cases hdate : r.date with
  | none =>
    rw [hdate] at hB
    simp at hB
  | some dt => simp [hdate]

theorem default_date_filter_excludes_absent_witness :
    ∃ fd, filterData mixedDateData (defaultSelection mixedDateData) = .ok fd ∧
      ∀ r ∈ fd.rows, (r.date).isSome = true :=
  default_date_filter_excludes_absent mixedDateData (by decide) (by decide)
    ⟨{ status := some "Completed", region := none, segment := none,
       date := some (mkDate 2024 1 10), volume := none, revenue := none },
     by decide, by decide⟩
